import Mathlib

/-!
Verification of the Intcode virtual machine of this repository
(src/intcode/src/lib.rs) against its natural-language specification.

The Rust code is shallowly embedded: machine integers (isize) become
unbounded Int — every claim under scrutiny stays within the 64-bit range —
except where the code performs an explicit integer cast (`as usize` on a
jump target, `as isize` on the instruction counter), which is modelled by
the two's-complement conversions usizeToIsize / isizeToUsize below.
Fallible Rust methods returning Result<T, IntcodeError> on a &mut self
become functions from the process state to a pair of an Except value and
the successor state, because mutations performed before an early `?`
return persist in Rust.  The unbounded `loop` drivers `run` and
`run_to_output` take an explicit fuel argument and return `none` when the
fuel runs out.
-/

namespace Intcode

/-- An error that can occur from running an intcode process. -/
inductive IntcodeError where
  | UnknownInstruction : Int → IntcodeError
  | CatchFire : IntcodeError
  | Segfault : Int → IntcodeError
  | NoInputAvailable : IntcodeError
deriving DecidableEq, Repr

/-- The type of an input parameter. -/
inductive InputParameter where
  | Position : InputParameter
  | Immediate : InputParameter
  | Relative : InputParameter
deriving DecidableEq, Repr

/-- The type of an output parameter. -/
inductive OutputParameter where
  | Position : OutputParameter
  | Relative : OutputParameter
deriving DecidableEq, Repr

/-- A decoded instruction. -/
inductive Instruction where
  | Add : InputParameter → InputParameter → OutputParameter → Instruction
  | Mul : InputParameter → InputParameter → OutputParameter → Instruction
  | Input : OutputParameter → Instruction
  | Output : InputParameter → Instruction
  | JumpIfTrue : InputParameter → InputParameter → Instruction
  | JumpIfFalse : InputParameter → InputParameter → Instruction
  | LessThan : InputParameter → InputParameter → OutputParameter → Instruction
  | Equals : InputParameter → InputParameter → OutputParameter → Instruction
  | RelativeMode : InputParameter → Instruction
  | Halt : Instruction
deriving DecidableEq, Repr

namespace Instruction

/-- Rust `instruction / 10^position % 10` with truncating division and
remainder, extracting one decimal mode digit. -/
def decode_input_mode (instruction : Int) (position : Nat) : Except Unit InputParameter :=
  if (instruction.tdiv (10 ^ position)).tmod 10 = 0 then Except.ok InputParameter.Position
  else if (instruction.tdiv (10 ^ position)).tmod 10 = 1 then Except.ok InputParameter.Immediate
  else if (instruction.tdiv (10 ^ position)).tmod 10 = 2 then Except.ok InputParameter.Relative
  else Except.error ()

/-- Decode one output-parameter mode digit; only 0 and 2 are recognized. -/
def decode_output_mode (instruction : Int) (position : Nat) : Except Unit OutputParameter :=
  if (instruction.tdiv (10 ^ position)).tmod 10 = 0 then Except.ok OutputParameter.Position
  else if (instruction.tdiv (10 ^ position)).tmod 10 = 2 then Except.ok OutputParameter.Relative
  else Except.error ()

/-- Decode a raw instruction word (opcode = word truncated-mod 100, one
mode digit per parameter).  The `?` early returns of the Rust code all
carry the unit error, so propagating the first failing mode and
collapsing every failing combination to one error arm agree. -/
def decode (instruction : Int) : Except Unit Instruction :=
  if instruction.tmod 100 = 1 then
    match decode_input_mode instruction 2, decode_input_mode instruction 3,
        decode_output_mode instruction 4 with
    | Except.ok a, Except.ok b, Except.ok c => Except.ok (Instruction.Add a b c)
    | _, _, _ => Except.error ()
  else if instruction.tmod 100 = 2 then
    match decode_input_mode instruction 2, decode_input_mode instruction 3,
        decode_output_mode instruction 4 with
    | Except.ok a, Except.ok b, Except.ok c => Except.ok (Instruction.Mul a b c)
    | _, _, _ => Except.error ()
  else if instruction.tmod 100 = 3 then
    match decode_output_mode instruction 2 with
    | Except.ok a => Except.ok (Instruction.Input a)
    | _ => Except.error ()
  else if instruction.tmod 100 = 4 then
    match decode_input_mode instruction 2 with
    | Except.ok a => Except.ok (Instruction.Output a)
    | _ => Except.error ()
  else if instruction.tmod 100 = 5 then
    match decode_input_mode instruction 2, decode_input_mode instruction 3 with
    | Except.ok a, Except.ok b => Except.ok (Instruction.JumpIfTrue a b)
    | _, _ => Except.error ()
  else if instruction.tmod 100 = 6 then
    match decode_input_mode instruction 2, decode_input_mode instruction 3 with
    | Except.ok a, Except.ok b => Except.ok (Instruction.JumpIfFalse a b)
    | _, _ => Except.error ()
  else if instruction.tmod 100 = 7 then
    match decode_input_mode instruction 2, decode_input_mode instruction 3,
        decode_output_mode instruction 4 with
    | Except.ok a, Except.ok b, Except.ok c => Except.ok (Instruction.LessThan a b c)
    | _, _, _ => Except.error ()
  else if instruction.tmod 100 = 8 then
    match decode_input_mode instruction 2, decode_input_mode instruction 3,
        decode_output_mode instruction 4 with
    | Except.ok a, Except.ok b, Except.ok c => Except.ok (Instruction.Equals a b c)
    | _, _, _ => Except.error ()
  else if instruction.tmod 100 = 9 then
    match decode_input_mode instruction 2 with
    | Except.ok a => Except.ok (Instruction.RelativeMode a)
    | _ => Except.error ()
  else if instruction.tmod 100 = 99 then Except.ok Instruction.Halt
  else Except.error ()

/-- Encode one input-parameter mode as its decimal digit contribution. -/
def encode_input_mode (mode : InputParameter) (position : Nat) : Int :=
  (10 : Int) ^ position *
    match mode with
    | InputParameter.Position => 0
    | InputParameter.Immediate => 1
    | InputParameter.Relative => 2

/-- Encode one output-parameter mode as its decimal digit contribution. -/
def encode_output_mode (mode : OutputParameter) (position : Nat) : Int :=
  (10 : Int) ^ position *
    match mode with
    | OutputParameter.Position => 0
    | OutputParameter.Relative => 2

/-- Encode an instruction back into its raw integer word. -/
def encode : Instruction → Int
  | Instruction.Add in2 in3 out4 =>
      1 + encode_input_mode in2 2 + encode_input_mode in3 3 + encode_output_mode out4 4
  | Instruction.Mul in2 in3 out4 =>
      2 + encode_input_mode in2 2 + encode_input_mode in3 3 + encode_output_mode out4 4
  | Instruction.Input out2 => 3 + encode_output_mode out2 2
  | Instruction.Output in2 => 4 + encode_input_mode in2 2
  | Instruction.JumpIfTrue in2 in3 =>
      5 + encode_input_mode in2 2 + encode_input_mode in3 3
  | Instruction.JumpIfFalse in2 in3 =>
      6 + encode_input_mode in2 2 + encode_input_mode in3 3
  | Instruction.LessThan in2 in3 out4 =>
      7 + encode_input_mode in2 2 + encode_input_mode in3 3 + encode_output_mode out4 4
  | Instruction.Equals in2 in3 out4 =>
      8 + encode_input_mode in2 2 + encode_input_mode in3 3 + encode_output_mode out4 4
  | Instruction.RelativeMode in2 => 9 + encode_input_mode in2 2
  | Instruction.Halt => 99

end Instruction

/-- Rust `usize as isize` on a 64-bit platform (two's-complement
reinterpretation of a value below 2^64). -/
def usizeToIsize (n : Nat) : Int :=
  if n < 2 ^ 63 then (n : Int) else (n : Int) - 2 ^ 64

/-- Rust `isize as usize` on a 64-bit platform (two's-complement
reinterpretation; for an isize value this is the value mod 2^64). -/
def isizeToUsize (i : Int) : Nat :=
  (i.emod (2 ^ 64)).toNat

/-- The root processor object that runs the intcode. -/
structure IntcodeProcess where
  memory : List Int
  instruction_counter : Nat
  relative_base : Int
  inputs : List Int
  outputs : List Int
deriving DecidableEq, Repr

namespace IntcodeProcess

/-- Create a new process with the given memory. -/
def from_vec (memory : List Int) : IntcodeProcess :=
  { memory := memory, instruction_counter := 0, relative_base := 0,
    inputs := [], outputs := [] }

/-- Retrieve a value from memory at the given address (caller-facing,
fixed-size accessor: out-of-bounds is a segfault). -/
def load (s : IntcodeProcess) (address : Int) : Except IntcodeError Int :=
  if address < 0 then Except.error (IntcodeError.Segfault address)
  else if s.memory.length ≤ address.toNat then Except.error (IntcodeError.Segfault address)
  else Except.ok (s.memory.getD address.toNat 0)

/-- Retrieve a value from memory at the given address, resizing the
address space if necessary. -/
def load_with_resize (s : IntcodeProcess) (address : Int) :
    Except IntcodeError Int × IntcodeProcess :=
  if address < 0 then (Except.error (IntcodeError.Segfault address), s)
  else if s.memory.length ≤ address.toNat then
    let memory := s.memory ++ List.replicate (address.toNat + 1 - s.memory.length) 0
    (Except.ok (memory.getD address.toNat 0), { s with memory := memory })
  else (Except.ok (s.memory.getD address.toNat 0), s)

/-- Put a value into memory at the given address (caller-facing,
fixed-size accessor: out-of-bounds is a segfault). -/
def store (s : IntcodeProcess) (address : Int) (value : Int) :
    Except IntcodeError Unit × IntcodeProcess :=
  if address < 0 then (Except.error (IntcodeError.Segfault address), s)
  else if s.memory.length ≤ address.toNat then
    (Except.error (IntcodeError.Segfault address), s)
  else (Except.ok (), { s with memory := s.memory.set address.toNat value })

/-- Put a value into memory at the given address, resizing the address
space if necessary. -/
def store_with_resize (s : IntcodeProcess) (address : Int) (value : Int) :
    Except IntcodeError Unit × IntcodeProcess :=
  if address < 0 then (Except.error (IntcodeError.Segfault address), s)
  else if s.memory.length ≤ address.toNat then
    let memory := s.memory ++ List.replicate (address.toNat + 1 - s.memory.length) 0
    (Except.ok (), { s with memory := memory.set address.toNat value })
  else (Except.ok (), { s with memory := s.memory.set address.toNat value })

/-- Add a parameter to the input to be used by the input instruction. -/
def add_input (s : IntcodeProcess) (value : Int) : IntcodeProcess :=
  { s with inputs := s.inputs ++ [value] }

/-- Resolve the value of one input parameter at the given location. -/
def load_input (s : IntcodeProcess) (mode : InputParameter) (parameter_location : Nat) :
    Except IntcodeError Int × IntcodeProcess :=
  match load_with_resize s (usizeToIsize parameter_location) with
  | (Except.error e, s1) => (Except.error e, s1)
  | (Except.ok parameter, s1) =>
    match mode with
    | InputParameter.Position => load_with_resize s1 parameter
    | InputParameter.Immediate => (Except.ok parameter, s1)
    | InputParameter.Relative => load_with_resize s1 (parameter + s1.relative_base)

/-- Resolve the destination of one output parameter at the given location
and write the value there. -/
def store_output (s : IntcodeProcess) (mode : OutputParameter) (parameter_location : Nat)
    (value : Int) : Except IntcodeError Unit × IntcodeProcess :=
  match load_with_resize s (usizeToIsize parameter_location) with
  | (Except.error e, s1) => (Except.error e, s1)
  | (Except.ok parameter, s1) =>
    match mode with
    | OutputParameter.Position => store_with_resize s1 parameter value
    | OutputParameter.Relative => store_with_resize s1 (parameter + s1.relative_base) value

/-- The Add opcode handler. -/
def add (s : IntcodeProcess) (in0 in1 : InputParameter) (out3 : OutputParameter) :
    Except IntcodeError Unit × IntcodeProcess :=
  match load_input s in0 (s.instruction_counter + 1) with
  | (Except.error e, s1) => (Except.error e, s1)
  | (Except.ok val0, s1) =>
    match load_input s1 in1 (s1.instruction_counter + 2) with
    | (Except.error e, s2) => (Except.error e, s2)
    | (Except.ok val1, s2) =>
      match store_output s2 out3 (s2.instruction_counter + 3) (val0 + val1) with
      | (Except.error e, s3) => (Except.error e, s3)
      | (Except.ok _, s3) =>
        (Except.ok (), { s3 with instruction_counter := s3.instruction_counter + 4 })

/-- The Mul opcode handler. -/
def mul (s : IntcodeProcess) (in0 in1 : InputParameter) (out3 : OutputParameter) :
    Except IntcodeError Unit × IntcodeProcess :=
  match load_input s in0 (s.instruction_counter + 1) with
  | (Except.error e, s1) => (Except.error e, s1)
  | (Except.ok val0, s1) =>
    match load_input s1 in1 (s1.instruction_counter + 2) with
    | (Except.error e, s2) => (Except.error e, s2)
    | (Except.ok val1, s2) =>
      match store_output s2 out3 (s2.instruction_counter + 3) (val0 * val1) with
      | (Except.error e, s3) => (Except.error e, s3)
      | (Except.ok _, s3) =>
        (Except.ok (), { s3 with instruction_counter := s3.instruction_counter + 4 })

/-- The Input opcode handler: dequeue one input value and store it. -/
def input (s : IntcodeProcess) (out1 : OutputParameter) :
    Except IntcodeError Unit × IntcodeProcess :=
  match s.inputs with
  | [] => (Except.error IntcodeError.NoInputAvailable, s)
  | value :: rest =>
    match store_output { s with inputs := rest } out1 (s.instruction_counter + 1) value with
    | (Except.error e, s2) => (Except.error e, s2)
    | (Except.ok _, s2) =>
      (Except.ok (), { s2 with instruction_counter := s2.instruction_counter + 2 })

/-- The Output opcode handler: append the resolved value to the output
log and return it. -/
def output (s : IntcodeProcess) (in0 : InputParameter) :
    Except IntcodeError Int × IntcodeProcess :=
  match load_input s in0 (s.instruction_counter + 1) with
  | (Except.error e, s1) => (Except.error e, s1)
  | (Except.ok val0, s1) =>
    (Except.ok val0, { s1 with
        outputs := s1.outputs ++ [val0]
        instruction_counter := s1.instruction_counter + 2 })

/-- The JumpIfTrue opcode handler.  A taken jump stores the target through
the Rust `as usize` cast. -/
def jump_if_true (s : IntcodeProcess) (in0 in1 : InputParameter) :
    Except IntcodeError Unit × IntcodeProcess :=
  match load_input s in0 (s.instruction_counter + 1) with
  | (Except.error e, s1) => (Except.error e, s1)
  | (Except.ok val0, s1) =>
    match load_input s1 in1 (s1.instruction_counter + 2) with
    | (Except.error e, s2) => (Except.error e, s2)
    | (Except.ok val1, s2) =>
      if val0 ≠ 0 then (Except.ok (), { s2 with instruction_counter := isizeToUsize val1 })
      else (Except.ok (), { s2 with instruction_counter := s2.instruction_counter + 3 })

/-- The JumpIfFalse opcode handler. -/
def jump_if_false (s : IntcodeProcess) (in0 in1 : InputParameter) :
    Except IntcodeError Unit × IntcodeProcess :=
  match load_input s in0 (s.instruction_counter + 1) with
  | (Except.error e, s1) => (Except.error e, s1)
  | (Except.ok val0, s1) =>
    match load_input s1 in1 (s1.instruction_counter + 2) with
    | (Except.error e, s2) => (Except.error e, s2)
    | (Except.ok val1, s2) =>
      if val0 = 0 then (Except.ok (), { s2 with instruction_counter := isizeToUsize val1 })
      else (Except.ok (), { s2 with instruction_counter := s2.instruction_counter + 3 })

/-- The LessThan opcode handler. -/
def less_than (s : IntcodeProcess) (in0 in1 : InputParameter) (out3 : OutputParameter) :
    Except IntcodeError Unit × IntcodeProcess :=
  match load_input s in0 (s.instruction_counter + 1) with
  | (Except.error e, s1) => (Except.error e, s1)
  | (Except.ok val0, s1) =>
    match load_input s1 in1 (s1.instruction_counter + 2) with
    | (Except.error e, s2) => (Except.error e, s2)
    | (Except.ok val1, s2) =>
      match store_output s2 out3 (s2.instruction_counter + 3) (if val0 < val1 then 1 else 0) with
      | (Except.error e, s3) => (Except.error e, s3)
      | (Except.ok _, s3) =>
        (Except.ok (), { s3 with instruction_counter := s3.instruction_counter + 4 })

/-- The Equals opcode handler. -/
def equals (s : IntcodeProcess) (in0 in1 : InputParameter) (out3 : OutputParameter) :
    Except IntcodeError Unit × IntcodeProcess :=
  match load_input s in0 (s.instruction_counter + 1) with
  | (Except.error e, s1) => (Except.error e, s1)
  | (Except.ok val0, s1) =>
    match load_input s1 in1 (s1.instruction_counter + 2) with
    | (Except.error e, s2) => (Except.error e, s2)
    | (Except.ok val1, s2) =>
      match store_output s2 out3 (s2.instruction_counter + 3) (if val0 = val1 then 1 else 0) with
      | (Except.error e, s3) => (Except.error e, s3)
      | (Except.ok _, s3) =>
        (Except.ok (), { s3 with instruction_counter := s3.instruction_counter + 4 })

/-- The AdjustRelativeBase opcode handler (called relative_mode in the
source): add the resolved value to the relative base. -/
def relative_mode (s : IntcodeProcess) (in0 : InputParameter) :
    Except IntcodeError Unit × IntcodeProcess :=
  match load_input s in0 (s.instruction_counter + 1) with
  | (Except.error e, s1) => (Except.error e, s1)
  | (Except.ok val0, s1) =>
    (Except.ok (), { s1 with
        relative_base := s1.relative_base + val0
        instruction_counter := s1.instruction_counter + 2 })

/-- The Halt opcode handler: report CatchFire. -/
def halt (s : IntcodeProcess) : Except IntcodeError Unit × IntcodeProcess :=
  (Except.error IntcodeError.CatchFire, s)

/-- Execute the next instruction.  An Output instruction reports the
produced value; every other successful instruction reports none. -/
def step (s : IntcodeProcess) : Except IntcodeError (Option Int) × IntcodeProcess :=
  match load_with_resize s (usizeToIsize s.instruction_counter) with
  | (Except.error e, s1) => (Except.error e, s1)
  | (Except.ok instruction, s1) =>
    match Instruction.decode instruction with
    | Except.error _ => (Except.error (IntcodeError.UnknownInstruction instruction), s1)
    | Except.ok instr =>
      match instr with
      | Instruction.Add in0 in1 out3 =>
        let r := add s1 in0 in1 out3
        (r.1.map (fun _ => none), r.2)
      | Instruction.Mul in0 in1 out3 =>
        let r := mul s1 in0 in1 out3
        (r.1.map (fun _ => none), r.2)
      | Instruction.Input out1 =>
        let r := input s1 out1
        (r.1.map (fun _ => none), r.2)
      | Instruction.Output in0 =>
        let r := output s1 in0
        (r.1.map (fun o => some o), r.2)
      | Instruction.JumpIfTrue in0 in1 =>
        let r := jump_if_true s1 in0 in1
        (r.1.map (fun _ => none), r.2)
      | Instruction.JumpIfFalse in0 in1 =>
        let r := jump_if_false s1 in0 in1
        (r.1.map (fun _ => none), r.2)
      | Instruction.LessThan in0 in1 out3 =>
        let r := less_than s1 in0 in1 out3
        (r.1.map (fun _ => none), r.2)
      | Instruction.Equals in0 in1 out3 =>
        let r := equals s1 in0 in1 out3
        (r.1.map (fun _ => none), r.2)
      | Instruction.RelativeMode in0 =>
        let r := relative_mode s1 in0
        (r.1.map (fun _ => none), r.2)
      | Instruction.Halt =>
        let r := halt s1
        (r.1.map (fun _ => none), r.2)

/-- Execute instructions until an error is reached (the Rust `run` loops
forever; the fuel argument bounds the number of steps, with `none`
meaning the bound was hit before the loop ended). -/
def run (fuel : Nat) (s : IntcodeProcess) : Option (IntcodeError × IntcodeProcess) :=
  match fuel with
  | 0 => none
  | fuel + 1 =>
    match step s with
    | (Except.error e, s1) => some (e, s1)
    | (Except.ok _, s1) => run fuel s1

/-- Execute instructions until an output is produced (fuelled like
`run`). -/
def run_to_output (fuel : Nat) (s : IntcodeProcess) :
    Option (Except IntcodeError Int × IntcodeProcess) :=
  match fuel with
  | 0 => none
  | fuel + 1 =>
    match step s with
    | (Except.error e, s1) => some (Except.error e, s1)
    | (Except.ok (some value), s1) => some (Except.ok value, s1)
    | (Except.ok none, s1) => run_to_output fuel s1

end IntcodeProcess

/-- Decidable equality on Except values, so that concrete runs of the
machine can be checked by decide. -/
instance {ε α : Type} [DecidableEq ε] [DecidableEq α] : DecidableEq (Except ε α) :=
  fun x y =>
    match x, y with
    | Except.error a, Except.error b =>
      if h : a = b then Decidable.isTrue (by rw [h])
      else Decidable.isFalse (fun hc => h (by injection hc))
    | Except.ok a, Except.ok b =>
      if h : a = b then Decidable.isTrue (by rw [h])
      else Decidable.isFalse (fun hc => h (by injection hc))
    | Except.error _, Except.ok _ => Decidable.isFalse (fun hc => Except.noConfusion hc)
    | Except.ok _, Except.error _ => Decidable.isFalse (fun hc => Except.noConfusion hc)

/-- The decimal digit of a raw instruction word at the given power of
ten, extracted the way the decoder does (truncating division and
remainder). -/
def digit (w : Int) (p : Nat) : Int :=
  (w.tdiv (10 ^ p)).tmod 10

/-- The opcode of the word (its two least-significant decimal digits,
via the truncating remainder of the source) is not one of 1-9 or 99. -/
def bad_opcode (w : Int) : Prop :=
  w.tmod 100 ∉ ([1, 2, 3, 4, 5, 6, 7, 8, 9, 99] : List Int)

/-- The word carries an unrecognized parameter-mode digit for one of the
parameters of its (recognized) opcode: an input-mode digit other than
0, 1, 2, or an output-target-mode digit other than 0, 2. -/
def bad_mode_digit (w : Int) : Prop :=
  (w.tmod 100 ∈ ([1, 2, 7, 8] : List Int) ∧
    (digit w 2 ∉ ([0, 1, 2] : List Int) ∨ digit w 3 ∉ ([0, 1, 2] : List Int) ∨
     digit w 4 ∉ ([0, 2] : List Int))) ∨
  (w.tmod 100 = 3 ∧ digit w 2 ∉ ([0, 2] : List Int)) ∨
  ((w.tmod 100 = 4 ∨ w.tmod 100 = 9) ∧ digit w 2 ∉ ([0, 1, 2] : List Int)) ∨
  ((w.tmod 100 = 5 ∨ w.tmod 100 = 6) ∧
    (digit w 2 ∉ ([0, 1, 2] : List Int) ∨ digit w 3 ∉ ([0, 1, 2] : List Int)))

/-- A raw instruction word the decoder must reject, as the specification
enumerates the failures: unknown opcode, or unrecognized mode digit. -/
def bad_word (w : Int) : Prop :=
  bad_opcode w ∨ bad_mode_digit w

instance : DecidablePred bad_opcode := fun w => by
  unfold bad_opcode; infer_instance

instance : DecidablePred bad_mode_digit := fun w => by
  unfold bad_mode_digit; infer_instance

instance : DecidablePred bad_word := fun w => by
  unfold bad_word; infer_instance

section FrameLemmas

open IntcodeProcess

theorem except_map_eq_error {ε α β : Type} (f : α → β) (x : Except ε α) (e : ε) :
    x.map f = Except.error e ↔ x = Except.error e := by
  cases x <;> simp [Except.map]

@[simp] theorem lwr_instruction_counter (s : IntcodeProcess) (a : Int) :
    (load_with_resize s a).2.instruction_counter = s.instruction_counter := by
  unfold load_with_resize; split <;> (try split) <;> rfl

@[simp] theorem lwr_relative_base (s : IntcodeProcess) (a : Int) :
    (load_with_resize s a).2.relative_base = s.relative_base := by
  unfold load_with_resize; split <;> (try split) <;> rfl

@[simp] theorem lwr_inputs (s : IntcodeProcess) (a : Int) :
    (load_with_resize s a).2.inputs = s.inputs := by
  unfold load_with_resize; split <;> (try split) <;> rfl

@[simp] theorem lwr_outputs (s : IntcodeProcess) (a : Int) :
    (load_with_resize s a).2.outputs = s.outputs := by
  unfold load_with_resize; split <;> (try split) <;> rfl

@[simp] theorem swr_instruction_counter (s : IntcodeProcess) (a v : Int) :
    (store_with_resize s a v).2.instruction_counter = s.instruction_counter := by
  unfold store_with_resize; split <;> (try split) <;> rfl

@[simp] theorem swr_relative_base (s : IntcodeProcess) (a v : Int) :
    (store_with_resize s a v).2.relative_base = s.relative_base := by
  unfold store_with_resize; split <;> (try split) <;> rfl

@[simp] theorem swr_inputs (s : IntcodeProcess) (a v : Int) :
    (store_with_resize s a v).2.inputs = s.inputs := by
  unfold store_with_resize; split <;> (try split) <;> rfl

@[simp] theorem swr_outputs (s : IntcodeProcess) (a v : Int) :
    (store_with_resize s a v).2.outputs = s.outputs := by
  unfold store_with_resize; split <;> (try split) <;> rfl

@[simp] theorem li_instruction_counter (s : IntcodeProcess) (m : InputParameter) (l : Nat) :
    (load_input s m l).2.instruction_counter = s.instruction_counter := by
  unfold load_input
  rcases h : load_with_resize s (usizeToIsize l) with ⟨r1, s1⟩
  have hs1 : s1 = (load_with_resize s (usizeToIsize l)).2 := by rw [h]
  subst hs1
  cases r1 <;> cases m <;> simp

@[simp] theorem li_relative_base (s : IntcodeProcess) (m : InputParameter) (l : Nat) :
    (load_input s m l).2.relative_base = s.relative_base := by
  unfold load_input
  rcases h : load_with_resize s (usizeToIsize l) with ⟨r1, s1⟩
  have hs1 : s1 = (load_with_resize s (usizeToIsize l)).2 := by rw [h]
  subst hs1
  cases r1 <;> cases m <;> simp

@[simp] theorem li_inputs (s : IntcodeProcess) (m : InputParameter) (l : Nat) :
    (load_input s m l).2.inputs = s.inputs := by
  unfold load_input
  rcases h : load_with_resize s (usizeToIsize l) with ⟨r1, s1⟩
  have hs1 : s1 = (load_with_resize s (usizeToIsize l)).2 := by rw [h]
  subst hs1
  cases r1 <;> cases m <;> simp

@[simp] theorem li_outputs (s : IntcodeProcess) (m : InputParameter) (l : Nat) :
    (load_input s m l).2.outputs = s.outputs := by
  unfold load_input
  rcases h : load_with_resize s (usizeToIsize l) with ⟨r1, s1⟩
  have hs1 : s1 = (load_with_resize s (usizeToIsize l)).2 := by rw [h]
  subst hs1
  cases r1 <;> cases m <;> simp

@[simp] theorem so_instruction_counter (s : IntcodeProcess) (m : OutputParameter) (l : Nat)
    (v : Int) : (store_output s m l v).2.instruction_counter = s.instruction_counter := by
  unfold store_output
  rcases h : load_with_resize s (usizeToIsize l) with ⟨r1, s1⟩
  have hs1 : s1 = (load_with_resize s (usizeToIsize l)).2 := by rw [h]
  subst hs1
  cases r1 <;> cases m <;> simp

@[simp] theorem so_relative_base (s : IntcodeProcess) (m : OutputParameter) (l : Nat)
    (v : Int) : (store_output s m l v).2.relative_base = s.relative_base := by
  unfold store_output
  rcases h : load_with_resize s (usizeToIsize l) with ⟨r1, s1⟩
  have hs1 : s1 = (load_with_resize s (usizeToIsize l)).2 := by rw [h]
  subst hs1
  cases r1 <;> cases m <;> simp

@[simp] theorem so_inputs (s : IntcodeProcess) (m : OutputParameter) (l : Nat) (v : Int) :
    (store_output s m l v).2.inputs = s.inputs := by
  unfold store_output
  rcases h : load_with_resize s (usizeToIsize l) with ⟨r1, s1⟩
  have hs1 : s1 = (load_with_resize s (usizeToIsize l)).2 := by rw [h]
  subst hs1
  cases r1 <;> cases m <;> simp

@[simp] theorem so_outputs (s : IntcodeProcess) (m : OutputParameter) (l : Nat) (v : Int) :
    (store_output s m l v).2.outputs = s.outputs := by
  unfold store_output
  rcases h : load_with_resize s (usizeToIsize l) with ⟨r1, s1⟩
  have hs1 : s1 = (load_with_resize s (usizeToIsize l)).2 := by rw [h]
  subst hs1
  cases r1 <;> cases m <;> simp

theorem lwr_error_shape (s : IntcodeProcess) (a : Int) (e : IntcodeError)
    (h : (load_with_resize s a).1 = Except.error e) :
    e = IntcodeError.Segfault a ∧ (load_with_resize s a).2 = s ∧ a < 0 := by
  revert h; unfold load_with_resize; split <;> (try split) <;> intro h <;> simp_all

theorem swr_error_shape (s : IntcodeProcess) (a v : Int) (e : IntcodeError)
    (h : (store_with_resize s a v).1 = Except.error e) :
    e = IntcodeError.Segfault a ∧ (store_with_resize s a v).2 = s ∧ a < 0 := by
  revert h; unfold store_with_resize; split <;> (try split) <;> intro h <;> simp_all

theorem lwr_ok_state (s : IntcodeProcess) (a : Int) (w : Int)
    (h : (load_with_resize s a).1 = Except.ok w) :
    (load_with_resize s a).2 = s ∨ w = 0 := by
  revert h; unfold load_with_resize; split
  · intro h; simp_all
  · split
    · intro h
      right
      rename_i hneg hlen
      have h0 : (s.memory ++ List.replicate (a.toNat + 1 - s.memory.length) 0).getD a.toNat 0
          = 0 := by
        rw [List.getD_eq_getElem?_getD, List.getElem?_append_right hlen]
        rw [List.getElem?_replicate]
        have hlt : a.toNat - s.memory.length < a.toNat + 1 - s.memory.length := by omega
        simp [hlt]
      simp only at h
      injection h with h
      rw [← h]
      exact h0
    · intro h; left; rfl

end FrameLemmas

section ShapeLemmas

open IntcodeProcess

theorem lwr_fst_eval (s : IntcodeProcess) (a : Int) :
    (load_with_resize s a).1 =
      if a < 0 then Except.error (IntcodeError.Segfault a)
      else Except.ok (s.memory.getD a.toNat 0) := by
  unfold load_with_resize
  split
  · rfl
  · split
    · rename_i hneg hlen
      have h0 : (s.memory ++ List.replicate (a.toNat + 1 - s.memory.length) 0).getD a.toNat 0
          = 0 := by
        rw [List.getD_eq_getElem?_getD, List.getElem?_append_right hlen]
        rw [List.getElem?_replicate]
        have hlt : a.toNat - s.memory.length < a.toNat + 1 - s.memory.length := by omega
        simp [hlt]
      have h1 : s.memory.getD a.toNat 0 = 0 := by
        rw [List.getD_eq_getElem?_getD, List.getElem?_eq_none (by omega)]
        rfl
      exact congrArg Except.ok (h0.trans h1.symm)
    · rfl

theorem li_error_shape (s : IntcodeProcess) (m : InputParameter) (l : Nat) (e : IntcodeError)
    (h : (load_input s m l).1 = Except.error e) : ∃ x, e = IntcodeError.Segfault x := by
  revert h; unfold load_input
  split
  · rename_i e1 s1 heq
    intro h
    injection h with h
    obtain ⟨he, -, -⟩ := lwr_error_shape _ _ _ (by rw [heq])
    exact ⟨usizeToIsize l, h ▸ he⟩
  · rename_i p s1 heq
    cases m
    · intro h
      obtain ⟨he, -, -⟩ := lwr_error_shape _ _ _ h
      exact ⟨p, he⟩
    · intro h; exact Except.noConfusion h
    · intro h
      obtain ⟨he, -, -⟩ := lwr_error_shape _ _ _ h
      exact ⟨p + s1.relative_base, he⟩

theorem so_error_shape (s : IntcodeProcess) (m : OutputParameter) (l : Nat) (v : Int)
    (e : IntcodeError) (h : (store_output s m l v).1 = Except.error e) :
    ∃ x, e = IntcodeError.Segfault x := by
  revert h; unfold store_output
  split
  · rename_i e1 s1 heq
    intro h
    injection h with h
    obtain ⟨he, -, -⟩ := lwr_error_shape _ _ _ (by rw [heq])
    exact ⟨usizeToIsize l, h ▸ he⟩
  · rename_i p s1 heq
    cases m
    · intro h
      obtain ⟨he, -, -⟩ := swr_error_shape _ _ _ _ h
      exact ⟨p, he⟩
    · intro h
      obtain ⟨he, -, -⟩ := swr_error_shape _ _ _ _ h
      exact ⟨p + s1.relative_base, he⟩

theorem add_error_shape (s : IntcodeProcess) (i0 i1 : InputParameter) (o3 : OutputParameter)
    (e : IntcodeError) (h : (add s i0 i1 o3).1 = Except.error e) :
    ∃ x, e = IntcodeError.Segfault x := by
  revert h; unfold add
  split
  · rename_i e1 s1 heq
    intro h; injection h with h
    exact h ▸ li_error_shape _ _ _ _ (by rw [heq])
  · rename_i v0 s1 heq1
    split
    · rename_i e1 s2 heq2
      intro h; injection h with h
      exact h ▸ li_error_shape _ _ _ _ (by rw [heq2])
    · rename_i v1 s2 heq2
      split
      · rename_i e1 s3 heq3
        intro h; injection h with h
        exact h ▸ so_error_shape _ _ _ _ _ (by rw [heq3])
      · intro h; exact Except.noConfusion h

theorem mul_error_shape (s : IntcodeProcess) (i0 i1 : InputParameter) (o3 : OutputParameter)
    (e : IntcodeError) (h : (mul s i0 i1 o3).1 = Except.error e) :
    ∃ x, e = IntcodeError.Segfault x := by
  revert h; unfold mul
  split
  · rename_i e1 s1 heq
    intro h; injection h with h
    exact h ▸ li_error_shape _ _ _ _ (by rw [heq])
  · rename_i v0 s1 heq1
    split
    · rename_i e1 s2 heq2
      intro h; injection h with h
      exact h ▸ li_error_shape _ _ _ _ (by rw [heq2])
    · rename_i v1 s2 heq2
      split
      · rename_i e1 s3 heq3
        intro h; injection h with h
        exact h ▸ so_error_shape _ _ _ _ _ (by rw [heq3])
      · intro h; exact Except.noConfusion h

theorem less_than_error_shape (s : IntcodeProcess) (i0 i1 : InputParameter)
    (o3 : OutputParameter) (e : IntcodeError) (h : (less_than s i0 i1 o3).1 = Except.error e) :
    ∃ x, e = IntcodeError.Segfault x := by
  revert h; unfold less_than
  split
  · rename_i e1 s1 heq
    intro h; injection h with h
    exact h ▸ li_error_shape _ _ _ _ (by rw [heq])
  · rename_i v0 s1 heq1
    split
    · rename_i e1 s2 heq2
      intro h; injection h with h
      exact h ▸ li_error_shape _ _ _ _ (by rw [heq2])
    · rename_i v1 s2 heq2
      split
      · rename_i e1 s3 heq3
        intro h; injection h with h
        exact h ▸ so_error_shape _ _ _ _ _ (by rw [heq3])
      · intro h; exact Except.noConfusion h

theorem equals_error_shape (s : IntcodeProcess) (i0 i1 : InputParameter)
    (o3 : OutputParameter) (e : IntcodeError) (h : (equals s i0 i1 o3).1 = Except.error e) :
    ∃ x, e = IntcodeError.Segfault x := by
  revert h; unfold equals
  split
  · rename_i e1 s1 heq
    intro h; injection h with h
    exact h ▸ li_error_shape _ _ _ _ (by rw [heq])
  · rename_i v0 s1 heq1
    split
    · rename_i e1 s2 heq2
      intro h; injection h with h
      exact h ▸ li_error_shape _ _ _ _ (by rw [heq2])
    · rename_i v1 s2 heq2
      split
      · rename_i e1 s3 heq3
        intro h; injection h with h
        exact h ▸ so_error_shape _ _ _ _ _ (by rw [heq3])
      · intro h; exact Except.noConfusion h

theorem output_error_shape (s : IntcodeProcess) (i0 : InputParameter) (e : IntcodeError)
    (h : (output s i0).1 = Except.error e) : ∃ x, e = IntcodeError.Segfault x := by
  revert h; unfold output
  split
  · rename_i e1 s1 heq
    intro h; injection h with h
    exact h ▸ li_error_shape _ _ _ _ (by rw [heq])
  · intro h; exact Except.noConfusion h

theorem jump_if_true_error_shape (s : IntcodeProcess) (i0 i1 : InputParameter)
    (e : IntcodeError) (h : (jump_if_true s i0 i1).1 = Except.error e) :
    ∃ x, e = IntcodeError.Segfault x := by
  revert h; unfold jump_if_true
  split
  · rename_i e1 s1 heq
    intro h; injection h with h
    exact h ▸ li_error_shape _ _ _ _ (by rw [heq])
  · rename_i v0 s1 heq1
    split
    · rename_i e1 s2 heq2
      intro h; injection h with h
      exact h ▸ li_error_shape _ _ _ _ (by rw [heq2])
    · rename_i v1 s2 heq2
      split
      · intro h; exact Except.noConfusion h
      · intro h; exact Except.noConfusion h

theorem jump_if_false_error_shape (s : IntcodeProcess) (i0 i1 : InputParameter)
    (e : IntcodeError) (h : (jump_if_false s i0 i1).1 = Except.error e) :
    ∃ x, e = IntcodeError.Segfault x := by
  revert h; unfold jump_if_false
  split
  · rename_i e1 s1 heq
    intro h; injection h with h
    exact h ▸ li_error_shape _ _ _ _ (by rw [heq])
  · rename_i v0 s1 heq1
    split
    · rename_i e1 s2 heq2
      intro h; injection h with h
      exact h ▸ li_error_shape _ _ _ _ (by rw [heq2])
    · rename_i v1 s2 heq2
      split
      · intro h; exact Except.noConfusion h
      · intro h; exact Except.noConfusion h

theorem relative_mode_error_shape (s : IntcodeProcess) (i0 : InputParameter)
    (e : IntcodeError) (h : (relative_mode s i0).1 = Except.error e) :
    ∃ x, e = IntcodeError.Segfault x := by
  revert h; unfold relative_mode
  split
  · rename_i e1 s1 heq
    intro h; injection h with h
    exact h ▸ li_error_shape _ _ _ _ (by rw [heq])
  · intro h; exact Except.noConfusion h

theorem input_error_shape (s : IntcodeProcess) (o1 : OutputParameter) (e : IntcodeError)
    (h : (input s o1).1 = Except.error e) :
    e = IntcodeError.NoInputAvailable ∨ ∃ x, e = IntcodeError.Segfault x := by
  revert h; unfold input
  split
  · intro h; injection h with h; exact Or.inl h.symm
  · rename_i value rest heq
    split
    · rename_i e1 s2 heq2
      intro h; injection h with h
      exact Or.inr (h ▸ so_error_shape _ _ _ _ _ (by rw [heq2]))
    · intro h; exact Except.noConfusion h

theorem input_err_nonempty (s : IntcodeProcess) (o1 : OutputParameter) (e : IntcodeError)
    (hne : s.inputs ≠ []) (h : (input s o1).1 = Except.error e) :
    ∃ x, e = IntcodeError.Segfault x := by
  revert h; unfold input
  split
  · rename_i heq; exact absurd heq hne
  · rename_i value rest heq
    split
    · rename_i e1 s2 heq2
      intro h; injection h with h
      exact h ▸ so_error_shape _ _ _ _ _ (by rw [heq2])
    · intro h; exact Except.noConfusion h

theorem input_noinput (s : IntcodeProcess) (o1 : OutputParameter)
    (h : (input s o1).1 = Except.error IntcodeError.NoInputAvailable) :
    (input s o1).2 = s ∧ s.inputs = [] := by
  revert h; unfold input
  split
  · rename_i heq; intro h; exact ⟨rfl, heq⟩
  · rename_i value rest heq
    split
    · rename_i e1 s2 heq2
      intro h; injection h with h
      obtain ⟨x, hx⟩ := so_error_shape _ _ _ _ _ (by rw [heq2])
      rw [h] at hx
      exact IntcodeError.noConfusion hx
    · intro h; exact Except.noConfusion h

theorem input_inputs_tail (s : IntcodeProcess) (o1 : OutputParameter) :
    (input s o1).2.inputs = s.inputs.tail := by
  unfold input
  split
  · rename_i heq; simp [heq]
  · rename_i value rest heq
    split
    · rename_i e1 s2 heq2
      rw [← congrArg Prod.snd heq2]
      simp [heq]
    · rename_i u s2 heq2
      have hs2 : s2 =
          (store_output { s with inputs := rest } o1 (s.instruction_counter + 1) value).2 := by
        rw [heq2]
      subst hs2
      simp [heq]

end ShapeLemmas

section HandlerLemmas

open IntcodeProcess

theorem add_rb (s : IntcodeProcess) (i0 i1 : InputParameter) (o3 : OutputParameter) :
    (add s i0 i1 o3).2.relative_base = s.relative_base := by
  unfold add
  split
  · rename_i e1 s1 heq1
    have e1 := congrArg (fun p => p.2.relative_base) heq1
    simp at e1 ⊢; omega
  · rename_i v0 s1 heq1
    split
    · rename_i e s2 heq2
      have e1 := congrArg (fun p => p.2.relative_base) heq1
      have e2 := congrArg (fun p => p.2.relative_base) heq2
      simp at e1 e2 ⊢; omega
    · rename_i v1 s2 heq2
      split <;> rename_i r3 s3 heq3 <;>
        (have e1 := congrArg (fun p => p.2.relative_base) heq1
         have e2 := congrArg (fun p => p.2.relative_base) heq2
         have e3 := congrArg (fun p => p.2.relative_base) heq3
         simp at e1 e2 e3 ⊢
         omega)

theorem mul_rb (s : IntcodeProcess) (i0 i1 : InputParameter) (o3 : OutputParameter) :
    (mul s i0 i1 o3).2.relative_base = s.relative_base := by
  unfold mul
  split
  · rename_i e1 s1 heq1
    have e1 := congrArg (fun p => p.2.relative_base) heq1
    simp at e1 ⊢; omega
  · rename_i v0 s1 heq1
    split
    · rename_i e s2 heq2
      have e1 := congrArg (fun p => p.2.relative_base) heq1
      have e2 := congrArg (fun p => p.2.relative_base) heq2
      simp at e1 e2 ⊢; omega
    · rename_i v1 s2 heq2
      split <;> rename_i r3 s3 heq3 <;>
        (have e1 := congrArg (fun p => p.2.relative_base) heq1
         have e2 := congrArg (fun p => p.2.relative_base) heq2
         have e3 := congrArg (fun p => p.2.relative_base) heq3
         simp at e1 e2 e3 ⊢
         omega)

theorem less_than_rb (s : IntcodeProcess) (i0 i1 : InputParameter) (o3 : OutputParameter) :
    (less_than s i0 i1 o3).2.relative_base = s.relative_base := by
  unfold less_than
  split
  · rename_i e1 s1 heq1
    have e1 := congrArg (fun p => p.2.relative_base) heq1
    simp at e1 ⊢; omega
  · rename_i v0 s1 heq1
    split
    · rename_i e s2 heq2
      have e1 := congrArg (fun p => p.2.relative_base) heq1
      have e2 := congrArg (fun p => p.2.relative_base) heq2
      simp at e1 e2 ⊢; omega
    · rename_i v1 s2 heq2
      split <;> rename_i r3 s3 heq3 <;>
        (have e1 := congrArg (fun p => p.2.relative_base) heq1
         have e2 := congrArg (fun p => p.2.relative_base) heq2
         have e3 := congrArg (fun p => p.2.relative_base) heq3
         simp at e1 e2 e3 ⊢
         omega)

theorem equals_rb (s : IntcodeProcess) (i0 i1 : InputParameter) (o3 : OutputParameter) :
    (equals s i0 i1 o3).2.relative_base = s.relative_base := by
  unfold equals
  split
  · rename_i e1 s1 heq1
    have e1 := congrArg (fun p => p.2.relative_base) heq1
    simp at e1 ⊢; omega
  · rename_i v0 s1 heq1
    split
    · rename_i e s2 heq2
      have e1 := congrArg (fun p => p.2.relative_base) heq1
      have e2 := congrArg (fun p => p.2.relative_base) heq2
      simp at e1 e2 ⊢; omega
    · rename_i v1 s2 heq2
      split <;> rename_i r3 s3 heq3 <;>
        (have e1 := congrArg (fun p => p.2.relative_base) heq1
         have e2 := congrArg (fun p => p.2.relative_base) heq2
         have e3 := congrArg (fun p => p.2.relative_base) heq3
         simp at e1 e2 e3 ⊢
         omega)

theorem output_rb (s : IntcodeProcess) (i0 : InputParameter) :
    (output s i0).2.relative_base = s.relative_base := by
  unfold output
  split <;> rename_i r1 s1 heq1 <;>
    (have e1 := congrArg (fun p => p.2.relative_base) heq1
     simp at e1 ⊢
     omega)

theorem jump_if_true_rb (s : IntcodeProcess) (i0 i1 : InputParameter) :
    (jump_if_true s i0 i1).2.relative_base = s.relative_base := by
  unfold jump_if_true
  split
  · rename_i e1 s1 heq1
    have e1 := congrArg (fun p => p.2.relative_base) heq1
    simp at e1 ⊢; omega
  · rename_i v0 s1 heq1
    split
    · rename_i e s2 heq2
      have e1 := congrArg (fun p => p.2.relative_base) heq1
      have e2 := congrArg (fun p => p.2.relative_base) heq2
      simp at e1 e2 ⊢; omega
    · rename_i v1 s2 heq2
      split <;>
        (have e1 := congrArg (fun p => p.2.relative_base) heq1
         have e2 := congrArg (fun p => p.2.relative_base) heq2
         simp at e1 e2 ⊢
         omega)

theorem jump_if_false_rb (s : IntcodeProcess) (i0 i1 : InputParameter) :
    (jump_if_false s i0 i1).2.relative_base = s.relative_base := by
  unfold jump_if_false
  split
  · rename_i e1 s1 heq1
    have e1 := congrArg (fun p => p.2.relative_base) heq1
    simp at e1 ⊢; omega
  · rename_i v0 s1 heq1
    split
    · rename_i e s2 heq2
      have e1 := congrArg (fun p => p.2.relative_base) heq1
      have e2 := congrArg (fun p => p.2.relative_base) heq2
      simp at e1 e2 ⊢; omega
    · rename_i v1 s2 heq2
      split <;>
        (have e1 := congrArg (fun p => p.2.relative_base) heq1
         have e2 := congrArg (fun p => p.2.relative_base) heq2
         simp at e1 e2 ⊢
         omega)

theorem input_rb (s : IntcodeProcess) (o1 : OutputParameter) :
    (input s o1).2.relative_base = s.relative_base := by
  unfold input
  split
  · rfl
  · rename_i value rest heq
    split <;> rename_i r2 s2 heq2 <;>
      (have e2 := congrArg (fun p => p.2.relative_base) heq2
       simp at e2 ⊢
       omega)

theorem add_ok_ic (s : IntcodeProcess) (i0 i1 : InputParameter) (o3 : OutputParameter)
    (u : Unit) (h : (add s i0 i1 o3).1 = Except.ok u) :
    (add s i0 i1 o3).2.instruction_counter = s.instruction_counter + 4 := by
  revert h; unfold add
  split
  · intro h; exact Except.noConfusion h
  · rename_i v0 s1 heq1
    split
    · intro h; exact Except.noConfusion h
    · rename_i v1 s2 heq2
      split
      · intro h; exact Except.noConfusion h
      · rename_i r3 s3 heq3
        intro h
        have e1 := congrArg (fun p => p.2.instruction_counter) heq1
        have e2 := congrArg (fun p => p.2.instruction_counter) heq2
        have e3 := congrArg (fun p => p.2.instruction_counter) heq3
        simp at e1 e2 e3 ⊢
        omega

theorem mul_ok_ic (s : IntcodeProcess) (i0 i1 : InputParameter) (o3 : OutputParameter)
    (u : Unit) (h : (mul s i0 i1 o3).1 = Except.ok u) :
    (mul s i0 i1 o3).2.instruction_counter = s.instruction_counter + 4 := by
  revert h; unfold mul
  split
  · intro h; exact Except.noConfusion h
  · rename_i v0 s1 heq1
    split
    · intro h; exact Except.noConfusion h
    · rename_i v1 s2 heq2
      split
      · intro h; exact Except.noConfusion h
      · rename_i r3 s3 heq3
        intro h
        have e1 := congrArg (fun p => p.2.instruction_counter) heq1
        have e2 := congrArg (fun p => p.2.instruction_counter) heq2
        have e3 := congrArg (fun p => p.2.instruction_counter) heq3
        simp at e1 e2 e3 ⊢
        omega

theorem less_than_ok_ic (s : IntcodeProcess) (i0 i1 : InputParameter) (o3 : OutputParameter)
    (u : Unit) (h : (less_than s i0 i1 o3).1 = Except.ok u) :
    (less_than s i0 i1 o3).2.instruction_counter = s.instruction_counter + 4 := by
  revert h; unfold less_than
  split
  · intro h; exact Except.noConfusion h
  · rename_i v0 s1 heq1
    split
    · intro h; exact Except.noConfusion h
    · rename_i v1 s2 heq2
      split
      · intro h; exact Except.noConfusion h
      · rename_i r3 s3 heq3
        intro h
        have e1 := congrArg (fun p => p.2.instruction_counter) heq1
        have e2 := congrArg (fun p => p.2.instruction_counter) heq2
        have e3 := congrArg (fun p => p.2.instruction_counter) heq3
        simp at e1 e2 e3 ⊢
        omega

theorem equals_ok_ic (s : IntcodeProcess) (i0 i1 : InputParameter) (o3 : OutputParameter)
    (u : Unit) (h : (equals s i0 i1 o3).1 = Except.ok u) :
    (equals s i0 i1 o3).2.instruction_counter = s.instruction_counter + 4 := by
  revert h; unfold equals
  split
  · intro h; exact Except.noConfusion h
  · rename_i v0 s1 heq1
    split
    · intro h; exact Except.noConfusion h
    · rename_i v1 s2 heq2
      split
      · intro h; exact Except.noConfusion h
      · rename_i r3 s3 heq3
        intro h
        have e1 := congrArg (fun p => p.2.instruction_counter) heq1
        have e2 := congrArg (fun p => p.2.instruction_counter) heq2
        have e3 := congrArg (fun p => p.2.instruction_counter) heq3
        simp at e1 e2 e3 ⊢
        omega

theorem input_ok_ic (s : IntcodeProcess) (o1 : OutputParameter) (u : Unit)
    (h : (input s o1).1 = Except.ok u) :
    (input s o1).2.instruction_counter = s.instruction_counter + 2 := by
  revert h; unfold input
  split
  · intro h; exact Except.noConfusion h
  · rename_i value rest heq
    split
    · intro h; exact Except.noConfusion h
    · rename_i r2 s2 heq2
      intro h
      have e2 := congrArg (fun p => p.2.instruction_counter) heq2
      simp at e2 ⊢
      omega

theorem output_ok_ic (s : IntcodeProcess) (i0 : InputParameter) (v : Int)
    (h : (output s i0).1 = Except.ok v) :
    (output s i0).2.instruction_counter = s.instruction_counter + 2 := by
  revert h; unfold output
  split
  · intro h; exact Except.noConfusion h
  · rename_i v0 s1 heq1
    intro h
    have e1 := congrArg (fun p => p.2.instruction_counter) heq1
    simp at e1 ⊢
    omega

theorem relative_mode_ok_ic (s : IntcodeProcess) (i0 : InputParameter) (u : Unit)
    (h : (relative_mode s i0).1 = Except.ok u) :
    (relative_mode s i0).2.instruction_counter = s.instruction_counter + 2 := by
  revert h; unfold relative_mode
  split
  · intro h; exact Except.noConfusion h
  · rename_i v0 s1 heq1
    intro h
    have e1 := congrArg (fun p => p.2.instruction_counter) heq1
    simp at e1 ⊢
    omega

theorem jump_if_true_spec (s : IntcodeProcess) (i0 i1 : InputParameter) (v0 v1 : Int)
    (s1 s2 : IntcodeProcess)
    (h1 : load_input s i0 (s.instruction_counter + 1) = (Except.ok v0, s1))
    (h2 : load_input s1 i1 (s1.instruction_counter + 2) = (Except.ok v1, s2)) :
    jump_if_true s i0 i1 =
      if v0 ≠ 0 then (Except.ok (), { s2 with instruction_counter := isizeToUsize v1 })
      else (Except.ok (), { s2 with instruction_counter := s.instruction_counter + 3 }) := by
  have e1 := congrArg (fun p => p.2.instruction_counter) h1
  have e2 := congrArg (fun p => p.2.instruction_counter) h2
  simp at e1 e2
  have ee : s2.instruction_counter = s.instruction_counter := by omega
  unfold jump_if_true
  rw [h1]; dsimp only
  rw [h2]; dsimp only
  rw [ee]

theorem jump_if_false_spec (s : IntcodeProcess) (i0 i1 : InputParameter) (v0 v1 : Int)
    (s1 s2 : IntcodeProcess)
    (h1 : load_input s i0 (s.instruction_counter + 1) = (Except.ok v0, s1))
    (h2 : load_input s1 i1 (s1.instruction_counter + 2) = (Except.ok v1, s2)) :
    jump_if_false s i0 i1 =
      if v0 = 0 then (Except.ok (), { s2 with instruction_counter := isizeToUsize v1 })
      else (Except.ok (), { s2 with instruction_counter := s.instruction_counter + 3 }) := by
  have e1 := congrArg (fun p => p.2.instruction_counter) h1
  have e2 := congrArg (fun p => p.2.instruction_counter) h2
  simp at e1 e2
  have ee : s2.instruction_counter = s.instruction_counter := by omega
  unfold jump_if_false
  rw [h1]; dsimp only
  rw [h2]; dsimp only
  rw [ee]

theorem relative_mode_spec (s : IntcodeProcess) (i0 : InputParameter) (v : Int)
    (s1 : IntcodeProcess) (h : load_input s i0 (s.instruction_counter + 1) = (Except.ok v, s1)) :
    relative_mode s i0 = (Except.ok (), { s1 with
      relative_base := s1.relative_base + v
      instruction_counter := s1.instruction_counter + 2 }) ∧
    (relative_mode s i0).2.relative_base = s.relative_base + v := by
  have hEq : relative_mode s i0 = (Except.ok (), { s1 with
      relative_base := s1.relative_base + v
      instruction_counter := s1.instruction_counter + 2 }) := by
    unfold relative_mode
    rw [h]
  refine ⟨hEq, ?_⟩
  have e1 := congrArg (fun p => p.2.relative_base) h
  simp at e1
  rw [hEq]
  simp
  omega

theorem isizeToUsize_of_nonneg (v : Int) (h0 : 0 ≤ v) (h1 : v < 2 ^ 64) :
    (isizeToUsize v : Int) = v := by
  unfold isizeToUsize
  have hm : v.emod (2 ^ 64) = v := Int.emod_eq_of_lt h0 h1
  rw [hm]
  exact Int.toNat_of_nonneg h0

end HandlerLemmas

section DecodeLemmas

theorem dim_eq_error (w : Int) (p : Nat) (h : digit w p ∉ ([0, 1, 2] : List Int)) :
    Instruction.decode_input_mode w p = Except.error () := by
  simp only [List.mem_cons, List.not_mem_nil, or_false, not_or] at h
  obtain ⟨h0, h1, h2⟩ := h
  unfold digit at h0 h1 h2
  unfold Instruction.decode_input_mode
  rw [if_neg h0, if_neg h1, if_neg h2]

theorem dom_eq_error (w : Int) (p : Nat) (h : digit w p ∉ ([0, 2] : List Int)) :
    Instruction.decode_output_mode w p = Except.error () := by
  simp only [List.mem_cons, List.not_mem_nil, or_false, not_or] at h
  obtain ⟨h0, h2⟩ := h
  unfold digit at h0 h2
  unfold Instruction.decode_output_mode
  rw [if_neg h0, if_neg h2]

theorem decode_err_of_bad (w : Int) (h : bad_word w) :
    Instruction.decode w = Except.error () := by
  rcases h with hop | hmode
  · unfold bad_opcode at hop
    simp only [List.mem_cons, List.not_mem_nil, or_false, not_or] at hop
    obtain ⟨h1, h2, h3, h4, h5, h6, h7, h8, h9, h99⟩ := hop
    unfold Instruction.decode
    rw [if_neg h1, if_neg h2, if_neg h3, if_neg h4, if_neg h5, if_neg h6, if_neg h7, if_neg h8,
      if_neg h9, if_neg h99]
  · unfold bad_mode_digit at hmode
    rcases hmode with ⟨hin, hd⟩ | ⟨hob, hd⟩ | ⟨h49, hd⟩ | ⟨h56, hd⟩
    · simp only [List.mem_cons, List.not_mem_nil, or_false] at hin
      have hbad : Instruction.decode_input_mode w 2 = Except.error () ∨
          Instruction.decode_input_mode w 3 = Except.error () ∨
          Instruction.decode_output_mode w 4 = Except.error () := by
        rcases hd with hd2 | hd3 | hd4
        · exact Or.inl (dim_eq_error w 2 hd2)
        · exact Or.inr (Or.inl (dim_eq_error w 3 hd3))
        · exact Or.inr (Or.inr (dom_eq_error w 4 hd4))
      rcases hA : Instruction.decode_input_mode w 2 with u | a <;>
        rcases hB : Instruction.decode_input_mode w 3 with u' | b <;>
        rcases hC : Instruction.decode_output_mode w 4 with u'' | c <;>
        rcases hin with hcode | hcode | hcode | hcode <;>
        simp_all [Instruction.decode]
    · have hbad := dom_eq_error w 2 hd
      rcases hA : Instruction.decode_output_mode w 2 with u | a <;>
        simp_all [Instruction.decode]
    · have hbad := dim_eq_error w 2 hd
      rcases hA : Instruction.decode_input_mode w 2 with u | a <;>
        rcases h49 with hcode | hcode <;>
        simp_all [Instruction.decode]
    · have hbad : Instruction.decode_input_mode w 2 = Except.error () ∨
          Instruction.decode_input_mode w 3 = Except.error () := by
        rcases hd with hd2 | hd3
        · exact Or.inl (dim_eq_error w 2 hd2)
        · exact Or.inr (dim_eq_error w 3 hd3)
      rcases hA : Instruction.decode_input_mode w 2 with u | a <;>
        rcases hB : Instruction.decode_input_mode w 3 with u' | b <;>
        rcases h56 with hcode | hcode <;>
        simp_all [Instruction.decode]

end DecodeLemmas

section StepLemmas

open IntcodeProcess

theorem step_noinput_aux (s : IntcodeProcess) (r : Except IntcodeError (Option Int))
    (s' : IntcodeProcess) (heq : step s = (r, s'))
    (hr : r = Except.error IntcodeError.NoInputAvailable) :
    s' = s ∧ s.inputs = [] ∧
    ∃ w om, (load_with_resize s (usizeToIsize s.instruction_counter)).1 = Except.ok w ∧
      Instruction.decode w = Except.ok (Instruction.Input om) := by
  subst hr
  revert heq; unfold step
  split
  · rename_i e sf hf
    intro heq
    rw [Prod.mk.injEq] at heq
    obtain ⟨he, -⟩ := heq
    injection he with he
    have hseg := (lwr_error_shape s _ e (by rw [hf])).1
    rw [he] at hseg
    exact IntcodeError.noConfusion hseg
  · rename_i w sf hf
    split
    · rename_i u hd
      intro heq
      rw [Prod.mk.injEq] at heq
      obtain ⟨he, -⟩ := heq
      injection he with he
      exact IntcodeError.noConfusion he
    · rename_i instr hd
      split
      · rename_i in0 in1 o3
        intro heq
        simp only [Prod.mk.injEq] at heq
        obtain ⟨he, -⟩ := heq
        rw [except_map_eq_error] at he
        obtain ⟨x, hx⟩ := add_error_shape _ _ _ _ _ he
        exact IntcodeError.noConfusion hx
      · rename_i in0 in1 o3
        intro heq
        simp only [Prod.mk.injEq] at heq
        obtain ⟨he, -⟩ := heq
        rw [except_map_eq_error] at he
        obtain ⟨x, hx⟩ := mul_error_shape _ _ _ _ _ he
        exact IntcodeError.noConfusion hx
      · rename_i om
        intro heq
        simp only [Prod.mk.injEq] at heq
        obtain ⟨he, hs⟩ := heq
        rw [except_map_eq_error] at he
        obtain ⟨hstate, hinputs⟩ := input_noinput _ _ he
        have hsf : (load_with_resize s (usizeToIsize s.instruction_counter)).2 = sf :=
          congrArg Prod.snd hf
        rcases lwr_ok_state s _ w (by rw [hf]) with hss | hw0
        · have hsfs : sf = s := by rw [← hsf, hss]
          refine ⟨?_, ?_, ⟨w, om, by rw [hf], hd⟩⟩
          · rw [← hs, hstate, hsfs]
          · rw [hsfs] at hinputs; exact hinputs
        · subst hw0
          have hdec0 : Instruction.decode 0 = Except.error () := rfl
          rw [hdec0] at hd
          exact Except.noConfusion hd
      · rename_i in0
        intro heq
        simp only [Prod.mk.injEq] at heq
        obtain ⟨he, -⟩ := heq
        rw [except_map_eq_error] at he
        obtain ⟨x, hx⟩ := output_error_shape _ _ _ he
        exact IntcodeError.noConfusion hx
      · rename_i in0 in1
        intro heq
        simp only [Prod.mk.injEq] at heq
        obtain ⟨he, -⟩ := heq
        rw [except_map_eq_error] at he
        obtain ⟨x, hx⟩ := jump_if_true_error_shape _ _ _ _ he
        exact IntcodeError.noConfusion hx
      · rename_i in0 in1
        intro heq
        simp only [Prod.mk.injEq] at heq
        obtain ⟨he, -⟩ := heq
        rw [except_map_eq_error] at he
        obtain ⟨x, hx⟩ := jump_if_false_error_shape _ _ _ _ he
        exact IntcodeError.noConfusion hx
      · rename_i in0 in1 o3
        intro heq
        simp only [Prod.mk.injEq] at heq
        obtain ⟨he, -⟩ := heq
        rw [except_map_eq_error] at he
        obtain ⟨x, hx⟩ := less_than_error_shape _ _ _ _ _ he
        exact IntcodeError.noConfusion hx
      · rename_i in0 in1 o3
        intro heq
        simp only [Prod.mk.injEq] at heq
        obtain ⟨he, -⟩ := heq
        rw [except_map_eq_error] at he
        obtain ⟨x, hx⟩ := equals_error_shape _ _ _ _ _ he
        exact IntcodeError.noConfusion hx
      · rename_i in0
        intro heq
        simp only [Prod.mk.injEq] at heq
        obtain ⟨he, -⟩ := heq
        rw [except_map_eq_error] at he
        obtain ⟨x, hx⟩ := relative_mode_error_shape _ _ _ he
        exact IntcodeError.noConfusion hx
      · intro heq
        simp only [Prod.mk.injEq] at heq
        obtain ⟨he, -⟩ := heq
        rw [except_map_eq_error] at he
        simp only [halt] at he
        injection he with he
        exact IntcodeError.noConfusion he

theorem step_input_dispatch (s : IntcodeProcess) (w : Int) (om : OutputParameter)
    (sf : IntcodeProcess)
    (hf : load_with_resize s (usizeToIsize s.instruction_counter) = (Except.ok w, sf))
    (hd : Instruction.decode w = Except.ok (Instruction.Input om)) :
    step s = ((input sf om).1.map (fun _ => none), (input sf om).2) := by
  unfold step
  rw [hf]
  dsimp only
  rw [hd]

theorem step_unknown_aux (s : IntcodeProcess) (r : Except IntcodeError (Option Int))
    (s' : IntcodeProcess) (heq : step s = (r, s')) (w : Int)
    (hr : r = Except.error (IntcodeError.UnknownInstruction w)) :
    (load_with_resize s (usizeToIsize s.instruction_counter)).1 = Except.ok w ∧
    Instruction.decode w = Except.error () := by
  subst hr
  revert heq; unfold step
  split
  · rename_i e sf hf
    intro heq
    rw [Prod.mk.injEq] at heq
    obtain ⟨he, -⟩ := heq
    injection he with he
    have hseg := (lwr_error_shape s _ e (by rw [hf])).1
    rw [he] at hseg
    exact IntcodeError.noConfusion hseg
  · rename_i wi sf hf
    split
    · rename_i u hd
      intro heq
      rw [Prod.mk.injEq] at heq
      obtain ⟨he, -⟩ := heq
      injection he with he
      injection he with he
      subst he
      exact ⟨by rw [hf], hd⟩
    · rename_i instr hd
      split
      · intro heq
        simp only [Prod.mk.injEq] at heq
        obtain ⟨he, -⟩ := heq
        rw [except_map_eq_error] at he
        obtain ⟨x, hx⟩ := add_error_shape _ _ _ _ _ he
        exact IntcodeError.noConfusion hx
      · intro heq
        simp only [Prod.mk.injEq] at heq
        obtain ⟨he, -⟩ := heq
        rw [except_map_eq_error] at he
        obtain ⟨x, hx⟩ := mul_error_shape _ _ _ _ _ he
        exact IntcodeError.noConfusion hx
      · intro heq
        simp only [Prod.mk.injEq] at heq
        obtain ⟨he, -⟩ := heq
        rw [except_map_eq_error] at he
        rcases input_error_shape _ _ _ he with hx | ⟨x, hx⟩ <;>
          exact IntcodeError.noConfusion hx
      · intro heq
        simp only [Prod.mk.injEq] at heq
        obtain ⟨he, -⟩ := heq
        rw [except_map_eq_error] at he
        obtain ⟨x, hx⟩ := output_error_shape _ _ _ he
        exact IntcodeError.noConfusion hx
      · intro heq
        simp only [Prod.mk.injEq] at heq
        obtain ⟨he, -⟩ := heq
        rw [except_map_eq_error] at he
        obtain ⟨x, hx⟩ := jump_if_true_error_shape _ _ _ _ he
        exact IntcodeError.noConfusion hx
      · intro heq
        simp only [Prod.mk.injEq] at heq
        obtain ⟨he, -⟩ := heq
        rw [except_map_eq_error] at he
        obtain ⟨x, hx⟩ := jump_if_false_error_shape _ _ _ _ he
        exact IntcodeError.noConfusion hx
      · intro heq
        simp only [Prod.mk.injEq] at heq
        obtain ⟨he, -⟩ := heq
        rw [except_map_eq_error] at he
        obtain ⟨x, hx⟩ := less_than_error_shape _ _ _ _ _ he
        exact IntcodeError.noConfusion hx
      · intro heq
        simp only [Prod.mk.injEq] at heq
        obtain ⟨he, -⟩ := heq
        rw [except_map_eq_error] at he
        obtain ⟨x, hx⟩ := equals_error_shape _ _ _ _ _ he
        exact IntcodeError.noConfusion hx
      · intro heq
        simp only [Prod.mk.injEq] at heq
        obtain ⟨he, -⟩ := heq
        rw [except_map_eq_error] at he
        obtain ⟨x, hx⟩ := relative_mode_error_shape _ _ _ he
        exact IntcodeError.noConfusion hx
      · intro heq
        simp only [Prod.mk.injEq] at heq
        obtain ⟨he, -⟩ := heq
        rw [except_map_eq_error] at he
        simp only [halt] at he
        injection he with he
        exact IntcodeError.noConfusion he

theorem step_rb_aux (s : IntcodeProcess) (r : Except IntcodeError (Option Int))
    (s' : IntcodeProcess) (heq : step s = (r, s'))
    (hni : ∀ w i0, (load_with_resize s (usizeToIsize s.instruction_counter)).1 = Except.ok w →
      Instruction.decode w ≠ Except.ok (Instruction.RelativeMode i0)) :
    s'.relative_base = s.relative_base := by
  revert heq; unfold step
  split
  · rename_i e sf hf
    intro heq
    rw [Prod.mk.injEq] at heq
    obtain ⟨-, hs⟩ := heq
    subst hs
    have h1 := congrArg (fun p => p.2.relative_base) hf
    simp at h1
    omega
  · rename_i w sf hf
    have h1 := congrArg (fun p => p.2.relative_base) hf
    simp at h1
    split
    · rename_i u hd
      intro heq
      rw [Prod.mk.injEq] at heq
      obtain ⟨-, hs⟩ := heq
      subst hs
      omega
    · rename_i instr hd
      split
      · intro heq
        simp only [Prod.mk.injEq] at heq
        obtain ⟨-, hs⟩ := heq
        subst hs
        rw [add_rb]; omega
      · intro heq
        simp only [Prod.mk.injEq] at heq
        obtain ⟨-, hs⟩ := heq
        subst hs
        rw [mul_rb]; omega
      · intro heq
        simp only [Prod.mk.injEq] at heq
        obtain ⟨-, hs⟩ := heq
        subst hs
        rw [input_rb]; omega
      · intro heq
        simp only [Prod.mk.injEq] at heq
        obtain ⟨-, hs⟩ := heq
        subst hs
        rw [output_rb]; omega
      · intro heq
        simp only [Prod.mk.injEq] at heq
        obtain ⟨-, hs⟩ := heq
        subst hs
        rw [jump_if_true_rb]; omega
      · intro heq
        simp only [Prod.mk.injEq] at heq
        obtain ⟨-, hs⟩ := heq
        subst hs
        rw [jump_if_false_rb]; omega
      · intro heq
        simp only [Prod.mk.injEq] at heq
        obtain ⟨-, hs⟩ := heq
        subst hs
        rw [less_than_rb]; omega
      · intro heq
        simp only [Prod.mk.injEq] at heq
        obtain ⟨-, hs⟩ := heq
        subst hs
        rw [equals_rb]; omega
      · rename_i in0
        intro heq
        exact absurd hd (hni w in0 (by rw [hf]))
      · intro heq
        simp only [Prod.mk.injEq] at heq
        obtain ⟨-, hs⟩ := heq
        subst hs
        simp only [halt]
        omega

end StepLemmas

section Claims

open IntcodeProcess

/-- Claim C1, counterexample: the caller-facing load and store do NOT
follow the auto-grow policy: at the non-negative address 5, at the
current tape length of the five-cell memory, load fails with Segfault 5
instead of returning 0, and store fails with Segfault 5 instead of
auto-extending. -/
theorem load_store_fixed_policy_cex :
    load (from_vec [0, 2, 4, 6, 8]) 5 = Except.error (IntcodeError.Segfault 5) ∧
    store (from_vec [0, 2, 4, 6, 8]) 5 10 =
      (Except.error (IntcodeError.Segfault 5), from_vec [0, 2, 4, 6, 8]) := by
  exact ⟨rfl, rfl⟩

/-- Claim C1, amended: the resize-variant memory accessors, the ones
instruction execution uses, follow the auto-grow policy: for every
non-negative address, load_with_resize succeeds (returning 0 when the
address is at or beyond the current tape length) and store_with_resize
succeeds, zero-filling up to the address and then writing the value;
neither ever fails with Segfault at a non-negative address.  (The
caller-facing load/store keep the fixed-size Segfault policy, see the
counterexample.) -/
theorem with_resize_auto_grow :
    ∀ (s : IntcodeProcess) (a : Int), 0 ≤ a →
      (∃ v, (load_with_resize s a).1 = Except.ok v) ∧
      (∀ u : Int, (store_with_resize s a u).1 = Except.ok ()) ∧
      (s.memory.length ≤ a.toNat →
        (load_with_resize s a).1 = Except.ok 0 ∧
        ∀ u : Int, (store_with_resize s a u).2.memory =
          (s.memory ++ List.replicate (a.toNat + 1 - s.memory.length) 0).set a.toNat u) := by
  intro s a ha
  have hneg : ¬ a < 0 := by omega
  refine ⟨?_, ?_, ?_⟩
  · rw [lwr_fst_eval, if_neg hneg]; exact ⟨_, rfl⟩
  · intro u; unfold store_with_resize; rw [if_neg hneg]; split <;> rfl
  · intro hlen
    constructor
    · rw [lwr_fst_eval, if_neg hneg]
      have h1 : s.memory.getD a.toNat 0 = 0 := by
        rw [List.getD_eq_getElem?_getD, List.getElem?_eq_none (by omega)]; rfl
      rw [h1]
    · intro u
      unfold store_with_resize
      rw [if_neg hneg, if_pos hlen]

/-- Witness for the amended C1 at a concrete state: growing a one-cell
tape by a load and a store at address 3. -/
theorem with_resize_auto_grow_witness :
    (load_with_resize (from_vec [99]) 3).1 = Except.ok 0 ∧
    (store_with_resize (from_vec [99]) 3 7).2.memory = [99, 0, 0, 7] := by
  obtain ⟨h1, h2, h3⟩ := with_resize_auto_grow (from_vec [99]) 3 (by decide)
  obtain ⟨h4, h5⟩ := h3 (by decide)
  refine ⟨h4, ?_⟩
  rw [h5 7]
  decide

/-- Claim C2: every negative address makes load, store, load_with_resize
and store_with_resize fail with Segfault carrying that address, with the
state (hence the tape length) unchanged, for every memory contents; and
an address resolved during execution through relative mode whose operand
plus relative base is negative fails with the same Segfault. -/
theorem negative_address_segfault :
    (∀ (s : IntcodeProcess) (a v : Int), a < 0 →
      load s a = Except.error (IntcodeError.Segfault a) ∧
      store s a v = (Except.error (IntcodeError.Segfault a), s) ∧
      load_with_resize s a = (Except.error (IntcodeError.Segfault a), s) ∧
      store_with_resize s a v = (Except.error (IntcodeError.Segfault a), s)) ∧
    (∀ (s : IntcodeProcess) (l : Nat) (p : Int),
      (load_with_resize s (usizeToIsize l)).1 = Except.ok p →
      p + s.relative_base < 0 →
      (load_input s InputParameter.Relative l).1 =
        Except.error (IntcodeError.Segfault (p + s.relative_base))) := by
  constructor
  · intro s a v h
    refine ⟨?_, ?_, ?_, ?_⟩
    · unfold load; rw [if_pos h]
    · unfold store; rw [if_pos h]
    · unfold load_with_resize; rw [if_pos h]
    · unfold store_with_resize; rw [if_pos h]
  · intro s l p hp hneg
    have hpair : load_with_resize s (usizeToIsize l) =
        (Except.ok p, (load_with_resize s (usizeToIsize l)).2) := by rw [← hp]
    unfold load_input
    rw [hpair]
    dsimp only
    rw [lwr_relative_base]
    rw [lwr_fst_eval, if_pos hneg]

/-- Witness for C2 at concrete states: loading address -1, and resolving
a relative parameter whose operand -5 plus relative base 0 is negative. -/
theorem negative_address_segfault_witness :
    load (from_vec [99]) (-1) = Except.error (IntcodeError.Segfault (-1)) ∧
    (load_input (from_vec [-5]) InputParameter.Relative 0).1 =
      Except.error (IntcodeError.Segfault (-5)) := by
  constructor
  · exact (negative_address_segfault.1 (from_vec [99]) (-1) 0 (by decide)).1
  · have h := negative_address_segfault.2 (from_vec [-5]) 0 (-5) (by decide) (by decide)
    simpa using h

/-- Claim C3: a step that reports NoInputAvailable leaves the whole
state unchanged (counter, memory, relative base, input queue, output
log), the input queue was empty, the fetched word decodes to an Input
instruction, and after appending an input value the re-invoked step is
no longer short of input and consumes the supplied value. -/
theorem step_no_input_preserves_state :
    ∀ s : IntcodeProcess, (step s).1 = Except.error IntcodeError.NoInputAvailable →
      (step s).2 = s ∧ s.inputs = [] ∧
      (∃ w om, (load_with_resize s (usizeToIsize s.instruction_counter)).1 = Except.ok w ∧
        Instruction.decode w = Except.ok (Instruction.Input om)) ∧
      ∀ v : Int, (step (add_input s v)).1 ≠ Except.error IntcodeError.NoInputAvailable ∧
        (step (add_input s v)).2.inputs = [] := by
  intro s h
  have hpair : step s = (Except.error IntcodeError.NoInputAvailable, (step s).2) := by
    rw [← h]
  obtain ⟨hs', hinp, hex⟩ := step_noinput_aux s _ _ hpair rfl
  refine ⟨hs', hinp, hex, ?_⟩
  intro v
  obtain ⟨w, om, hf1, hd⟩ := hex
  have hfst : (load_with_resize (add_input s v)
      (usizeToIsize (add_input s v).instruction_counter)).1 = Except.ok w := by
    rw [lwr_fst_eval] at hf1 ⊢
    exact hf1
  have hfull : load_with_resize (add_input s v)
      (usizeToIsize (add_input s v).instruction_counter) =
      (Except.ok w, (load_with_resize (add_input s v)
        (usizeToIsize (add_input s v).instruction_counter)).2) := by
    rw [← hfst]
  have hstep := step_input_dispatch (add_input s v) w om _ hfull hd
  have hsfinputs : (load_with_resize (add_input s v)
      (usizeToIsize (add_input s v).instruction_counter)).2.inputs = [v] := by
    rw [lwr_inputs]
    show s.inputs ++ [v] = [v]
    rw [hinp]
    rfl
  constructor
  · rw [hstep]
    intro hcon
    dsimp only at hcon
    rw [except_map_eq_error] at hcon
    obtain ⟨x, hx⟩ := input_err_nonempty _ om _ (by rw [hsfinputs]; simp) hcon
    exact IntcodeError.noConfusion hx
  · rw [hstep]
    dsimp only
    rw [input_inputs_tail, hsfinputs]
    rfl

/-- Witness for C3: the repository's own input program [3,5,4,5,99,0]
run with an empty input queue. -/
theorem step_no_input_preserves_state_witness :
    (step (from_vec [3, 5, 4, 5, 99, 0])).2 = from_vec [3, 5, 4, 5, 99, 0] ∧
    (step (add_input (from_vec [3, 5, 4, 5, 99, 0]) 421)).2.inputs = [] := by
  have h := step_no_input_preserves_state (from_vec [3, 5, 4, 5, 99, 0]) (by decide)
  exact ⟨h.1, (h.2.2.2 421).2⟩

/-- Claim C4: on the program made of three immediate-mode Output
instructions (raw word 104, the encoding of Output/Immediate) with
arbitrary values followed by Halt, successive run_to_output calls (with
any fuel, one step suffices for each) return the three values in program
order, appending exactly the returned value to the output log each
time, and the fourth call returns CatchFire leaving the log at the
three values. -/
theorem run_to_output_three_outputs :
    ∀ (v1 v2 v3 : Int) (fuel : Nat),
      run_to_output (fuel + 1) (from_vec [104, v1, 104, v2, 104, v3, 99]) =
        some (Except.ok v1,
          { memory := [104, v1, 104, v2, 104, v3, 99], instruction_counter := 2,
            relative_base := 0, inputs := [], outputs := [v1] }) ∧
      run_to_output (fuel + 1)
          { memory := [104, v1, 104, v2, 104, v3, 99], instruction_counter := 2,
            relative_base := 0, inputs := [], outputs := [v1] } =
        some (Except.ok v2,
          { memory := [104, v1, 104, v2, 104, v3, 99], instruction_counter := 4,
            relative_base := 0, inputs := [], outputs := [v1, v2] }) ∧
      run_to_output (fuel + 1)
          { memory := [104, v1, 104, v2, 104, v3, 99], instruction_counter := 4,
            relative_base := 0, inputs := [], outputs := [v1, v2] } =
        some (Except.ok v3,
          { memory := [104, v1, 104, v2, 104, v3, 99], instruction_counter := 6,
            relative_base := 0, inputs := [], outputs := [v1, v2, v3] }) ∧
      run_to_output (fuel + 1)
          { memory := [104, v1, 104, v2, 104, v3, 99], instruction_counter := 6,
            relative_base := 0, inputs := [], outputs := [v1, v2, v3] } =
        some (Except.error IntcodeError.CatchFire,
          { memory := [104, v1, 104, v2, 104, v3, 99], instruction_counter := 6,
            relative_base := 0, inputs := [], outputs := [v1, v2, v3] }) := by
  intro v1 v2 v3 fuel
  exact ⟨rfl, rfl, rfl, rfl⟩

/-- Claim C5: a word whose (truncating-remainder) opcode is outside
1-9/99, or that carries an unrecognized mode digit for one of its
opcode's parameters, makes step fail with UnknownInstruction carrying
the raw word whenever it is fetched as the current instruction; and
conversely step reports UnknownInstruction only for the word it just
fetched, which the decoder rejects — never for a word elsewhere in the
program. -/
theorem unknown_instruction_lazy :
    (∀ (s : IntcodeProcess) (w : Int),
      (load_with_resize s (usizeToIsize s.instruction_counter)).1 = Except.ok w →
      bad_word w → (step s).1 = Except.error (IntcodeError.UnknownInstruction w)) ∧
    (∀ (s : IntcodeProcess) (w : Int),
      (step s).1 = Except.error (IntcodeError.UnknownInstruction w) →
      (load_with_resize s (usizeToIsize s.instruction_counter)).1 = Except.ok w ∧
      Instruction.decode w = Except.error ()) := by
  constructor
  · intro s w hf hbad
    have hpair : load_with_resize s (usizeToIsize s.instruction_counter) =
        (Except.ok w, (load_with_resize s (usizeToIsize s.instruction_counter)).2) := by
      rw [← hf]
    have hdec := decode_err_of_bad w hbad
    unfold step
    rw [hpair]
    dsimp only
    rw [hdec]
  · intro s w h
    have hpair : step s = (Except.error (IntcodeError.UnknownInstruction w), (step s).2) := by
      rw [← h]
    exact step_unknown_aux s _ _ hpair w rfl

/-- Witness for C5: word 0 has opcode 0, so the step on [0] fails with
UnknownInstruction 0, and conversely that failure certifies the fetch
and the decode rejection. -/
theorem unknown_instruction_lazy_witness :
    (step (from_vec [0])).1 = Except.error (IntcodeError.UnknownInstruction 0) ∧
    Instruction.decode 0 = Except.error () := by
  constructor
  · exact unknown_instruction_lazy.1 (from_vec [0]) 0 (by decide) (by decide)
  · exact (unknown_instruction_lazy.2 (from_vec [0]) 0 (by decide)).2

/-- Claim C6, counterexample: a taken JumpIfTrue with second parameter
-1 does not set the counter to -1 (the counter is an unsigned machine
word); the Rust `as usize` cast makes it 2^64 - 1 instead. -/
theorem jump_negative_target_cex :
    (load_input (from_vec [1105, 1, -1]) InputParameter.Immediate 1).1 = Except.ok 1 ∧
    (load_input (from_vec [1105, 1, -1]) InputParameter.Immediate 2).1 = Except.ok (-1) ∧
    (jump_if_true (from_vec [1105, 1, -1]) InputParameter.Immediate
      InputParameter.Immediate).1 = Except.ok () ∧
    (jump_if_true (from_vec [1105, 1, -1]) InputParameter.Immediate
      InputParameter.Immediate).2.instruction_counter = 18446744073709551615 ∧
    ((jump_if_true (from_vec [1105, 1, -1]) InputParameter.Immediate
      InputParameter.Immediate).2.instruction_counter : Int) ≠ -1 ∧
    (step (from_vec [1105, 1, -1])).1 = Except.ok none ∧
    (step (from_vec [1105, 1, -1])).2.instruction_counter = 18446744073709551615 := by
  decide

/-- Claim C6, amended: a successful step advances the counter by 4 for
Add, Mul, LessThan, Equals and by 2 for Input, Output,
AdjustRelativeBase; a taken jump sets the counter to the second
parameter's value reinterpreted as an unsigned 64-bit integer (which is
the value itself whenever the value is non-negative and below 2^64),
and an untaken jump advances by 3. -/
theorem instruction_counter_advance :
    (∀ (s : IntcodeProcess) (i0 i1 : InputParameter) (o3 : OutputParameter) (u : Unit),
      (add s i0 i1 o3).1 = Except.ok u →
      (add s i0 i1 o3).2.instruction_counter = s.instruction_counter + 4) ∧
    (∀ (s : IntcodeProcess) (i0 i1 : InputParameter) (o3 : OutputParameter) (u : Unit),
      (mul s i0 i1 o3).1 = Except.ok u →
      (mul s i0 i1 o3).2.instruction_counter = s.instruction_counter + 4) ∧
    (∀ (s : IntcodeProcess) (i0 i1 : InputParameter) (o3 : OutputParameter) (u : Unit),
      (less_than s i0 i1 o3).1 = Except.ok u →
      (less_than s i0 i1 o3).2.instruction_counter = s.instruction_counter + 4) ∧
    (∀ (s : IntcodeProcess) (i0 i1 : InputParameter) (o3 : OutputParameter) (u : Unit),
      (equals s i0 i1 o3).1 = Except.ok u →
      (equals s i0 i1 o3).2.instruction_counter = s.instruction_counter + 4) ∧
    (∀ (s : IntcodeProcess) (o1 : OutputParameter) (u : Unit),
      (input s o1).1 = Except.ok u →
      (input s o1).2.instruction_counter = s.instruction_counter + 2) ∧
    (∀ (s : IntcodeProcess) (i0 : InputParameter) (v : Int),
      (output s i0).1 = Except.ok v →
      (output s i0).2.instruction_counter = s.instruction_counter + 2) ∧
    (∀ (s : IntcodeProcess) (i0 : InputParameter) (u : Unit),
      (relative_mode s i0).1 = Except.ok u →
      (relative_mode s i0).2.instruction_counter = s.instruction_counter + 2) ∧
    (∀ (s : IntcodeProcess) (i0 i1 : InputParameter) (v0 v1 : Int)
        (s1 s2 : IntcodeProcess),
      load_input s i0 (s.instruction_counter + 1) = (Except.ok v0, s1) →
      load_input s1 i1 (s1.instruction_counter + 2) = (Except.ok v1, s2) →
      jump_if_true s i0 i1 =
        if v0 ≠ 0 then (Except.ok (), { s2 with instruction_counter := isizeToUsize v1 })
        else (Except.ok (), { s2 with instruction_counter := s.instruction_counter + 3 })) ∧
    (∀ (s : IntcodeProcess) (i0 i1 : InputParameter) (v0 v1 : Int)
        (s1 s2 : IntcodeProcess),
      load_input s i0 (s.instruction_counter + 1) = (Except.ok v0, s1) →
      load_input s1 i1 (s1.instruction_counter + 2) = (Except.ok v1, s2) →
      jump_if_false s i0 i1 =
        if v0 = 0 then (Except.ok (), { s2 with instruction_counter := isizeToUsize v1 })
        else (Except.ok (), { s2 with instruction_counter := s.instruction_counter + 3 })) ∧
    (∀ v : Int, 0 ≤ v → v < 2 ^ 64 → (isizeToUsize v : Int) = v) := by
  exact ⟨add_ok_ic, mul_ok_ic, less_than_ok_ic, equals_ok_ic, input_ok_ic, output_ok_ic,
    relative_mode_ok_ic, jump_if_true_spec, jump_if_false_spec, isizeToUsize_of_nonneg⟩

/-- Witness for the amended C6: an Add advancing the counter by 4, and
a taken JumpIfTrue to the non-negative target 7. -/
theorem instruction_counter_advance_witness :
    (add (from_vec [1, 0, 0, 0, 99]) InputParameter.Position InputParameter.Position
      OutputParameter.Position).2.instruction_counter =
      (from_vec [1, 0, 0, 0, 99]).instruction_counter + 4 ∧
    (jump_if_true (from_vec [1105, 1, 7]) InputParameter.Immediate
      InputParameter.Immediate).2.instruction_counter = 7 ∧
    (isizeToUsize 7 : Int) = 7 := by
  refine ⟨?_, ?_, ?_⟩
  · exact instruction_counter_advance.1 (from_vec [1, 0, 0, 0, 99]) _ _ _ () (by decide)
  · have h := instruction_counter_advance.2.2.2.2.2.2.2.1 (from_vec [1105, 1, 7])
      InputParameter.Immediate InputParameter.Immediate 1 7 (from_vec [1105, 1, 7])
      (from_vec [1105, 1, 7]) (by decide) (by decide)
    rw [h]
    decide
  · exact instruction_counter_advance.2.2.2.2.2.2.2.2.2 7 (by decide) (by decide)

/-- Claim C7: the relative base starts at 0 in a fresh process, the
AdjustRelativeBase handler adds its resolved parameter to the relative
base, no step whose fetched word does not decode to AdjustRelativeBase
ever changes the relative base, and the concrete program [109,9,109,2,99]
accumulates +9 then +2 leaving 11 observable through the accessor. -/
theorem relative_base_semantics :
    (∀ m : List Int, (from_vec m).relative_base = 0) ∧
    (∀ (s : IntcodeProcess) (i0 : InputParameter) (v : Int) (s1 : IntcodeProcess),
      load_input s i0 (s.instruction_counter + 1) = (Except.ok v, s1) →
      relative_mode s i0 = (Except.ok (), { s1 with
        relative_base := s1.relative_base + v
        instruction_counter := s1.instruction_counter + 2 }) ∧
      (relative_mode s i0).2.relative_base = s.relative_base + v) ∧
    (∀ s : IntcodeProcess,
      (∀ w i0, (load_with_resize s (usizeToIsize s.instruction_counter)).1 = Except.ok w →
        Instruction.decode w ≠ Except.ok (Instruction.RelativeMode i0)) →
      (step s).2.relative_base = s.relative_base) ∧
    (run 3 (from_vec [109, 9, 109, 2, 99])).map (fun r => (r.1, r.2.relative_base)) =
      some (IntcodeError.CatchFire, 11) := by
  refine ⟨fun m => rfl, relative_mode_spec, ?_, by decide⟩
  intro s hni
  exact step_rb_aux s _ _ rfl hni

/-- Witness for C7: an AdjustRelativeBase of +9 from a fresh process,
and a Halt step that leaves the base untouched. -/
theorem relative_base_semantics_witness :
    (relative_mode (from_vec [109, 9]) InputParameter.Immediate).2.relative_base = 9 ∧
    (step (from_vec [99])).2.relative_base = 0 := by
  constructor
  · have h := (relative_base_semantics.2.1 (from_vec [109, 9]) InputParameter.Immediate 9
      (from_vec [109, 9]) (by decide)).2
    simpa using h
  · have hni : ∀ w i0, (load_with_resize (from_vec [99])
        (usizeToIsize (from_vec [99]).instruction_counter)).1 = Except.ok w →
        Instruction.decode w ≠ Except.ok (Instruction.RelativeMode i0) := by
      intro w i0 hw hd
      have h99 : (load_with_resize (from_vec [99])
          (usizeToIsize (from_vec [99]).instruction_counter)).1 = Except.ok 99 := by decide
      have hww := h99.symm.trans hw
      injection hww with hww
      rw [← hww] at hd
      revert hd
      cases i0 <;> decide
    have h := relative_base_semantics.2.2.1 (from_vec [99]) hni
    simpa using h

/-- Claim C8: the three Add/Mul/Halt example programs terminate with
CatchFire under run and leave exactly the manually computed memory. -/
theorem add_mul_example_programs :
    (run 2 (from_vec [1, 0, 0, 0, 99])).map (fun r => (r.1, r.2.memory)) =
      some (IntcodeError.CatchFire, [2, 0, 0, 0, 99]) ∧
    (run 2 (from_vec [2, 3, 0, 3, 99])).map (fun r => (r.1, r.2.memory)) =
      some (IntcodeError.CatchFire, [2, 3, 0, 6, 99]) ∧
    (run 3 (from_vec [1, 1, 1, 4, 99, 5, 6, 0, 99])).map (fun r => (r.1, r.2.memory)) =
      some (IntcodeError.CatchFire, [30, 1, 1, 4, 2, 5, 6, 0, 99]) := by
  exact ⟨rfl, rfl, rfl⟩

/-- Claim C9: the program [1102,34915192,34915192,7,4,7,99,0] multiplies
34915192 by itself in immediate mode and outputs the exact product
1219070632396864, terminating with CatchFire. -/
theorem large_multiplication_exact :
    (run 3 (from_vec [1102, 34915192, 34915192, 7, 4, 7, 99, 0])).map
      (fun r => (r.1, r.2.outputs)) =
      some (IntcodeError.CatchFire, [1219070632396864]) := by
  decide

/-- Claim C10: decoding the integer produced by encode recovers every
instruction exactly, over all opcode variants and all combinations of
their legal parameter modes. -/
theorem decode_encode_roundtrip :
    ∀ i : Instruction, Instruction.decode (Instruction.encode i) = Except.ok i := by
  intro i
  cases i with
  | Add a b c => cases a <;> cases b <;> cases c <;> rfl
  | Mul a b c => cases a <;> cases b <;> cases c <;> rfl
  | Input a => cases a <;> rfl
  | Output a => cases a <;> rfl
  | JumpIfTrue a b => cases a <;> cases b <;> rfl
  | JumpIfFalse a b => cases a <;> cases b <;> rfl
  | LessThan a b c => cases a <;> cases b <;> cases c <;> rfl
  | Equals a b c => cases a <;> cases b <;> cases c <;> rfl
  | RelativeMode a => cases a <;> rfl
  | Halt => rfl

end Claims

end Intcode
